import Mathlib

/-!
Verification of the `gh-summary` reporting tool.

The development shallowly embeds the pure parts of the program
(`src/output.rs`, `src/github.rs`, `src/data.rs`, `src/main.rs`):

* URL splitting and repository extraction (`extract_repo`);
* item printing with distinct-repository counting (`print_items`);
* metric summation and the net-contribution branch
  (`print_code_metrics`, `print_metrics_summary`);
* the mock metrics generator (`search_prs_detailed`);
* the orchestration in `main`, modeled as a pure function over an
  environment that supplies the results of the external `gh` calls.

Modeling conventions: Rust `i32` values are embedded as unbounded
integers (`Int`); debug builds of Rust abort on arithmetic overflow, so
every completed execution agrees with exact integer arithmetic.  The
explicit `as i32` casts in the mock generator are modeled by the
wrapping conversion `toI32`.  Date arithmetic (`Zoned`) is abstracted to
an integer day number; terminal colors and field-width padding are
elided from the printed text.
-/

/-- Code metrics for a PR (lines added, deleted, files changed), from
`src/data.rs` (`CodeMetrics`); the `i32` fields are embedded as `Int`. -/
structure CodeMetrics where
  additions : Int
  deletions : Int
  changed_files : Int
  deriving DecidableEq, Repr

/-- Rust `str::split('/')` on a list of characters: the slash-separated
segments, in order, keeping empty segments (so `n` slashes yield `n + 1`
segments). -/
def splitSlash : List Char → List (List Char)
  | [] => [[]]
  | c :: cs =>
    if c = '/' then [] :: splitSlash cs
    else
      match splitSlash cs with
      | [] => [[c]]
      | s :: rest => (c :: s) :: rest

/-- `extract_repo` from `src/output.rs` (duplicated in `src/main.rs`):
split the URL on `/`; if at least five segments are present and the
third equals `github.com`, return the fourth and fifth joined by a
slash, else return nothing. -/
def extract_repo (url : String) : Option String :=
  let parts := splitSlash url.toList
  if parts.length ≥ 5 ∧ parts.getD 2 [] = "github.com".toList then
    some (String.mk (parts.getD 3 []) ++ "/" ++ String.mk (parts.getD 4 []))
  else
    none

/-- The distinct-repository count computed at the top of `print_items`:
collect the successful extractions into a hash set and take its size;
the hash-set size is modeled as the length of the deduplicated list. -/
def repoCount (urls : List String) : Nat :=
  ((urls.filterMap extract_repo).dedup).length

/-- Rust `Vec::sort` on the urls (`sorted_urls.sort()` in `print_items`):
stable sort in nondecreasing lexicographic order. -/
def sortUrls (urls : List String) : List String :=
  urls.mergeSort (fun a b => decide (a ≤ b))

/-- `print_items` from `src/output.rs`, returning the printed lines.
Verbose mode prints the label with the total count and then every URL,
sorted; compact mode prints one line with the total count and the
distinct-repository count (with a pluralized noun). -/
def printItems (label : String) (urls : List String) (verbose : Bool) : List String :=
  if verbose then
    (label ++ toString urls.length) ::
      (if urls.isEmpty then [] else (sortUrls urls).map (fun url => "  - " ++ url))
  else
    let repoWord := if repoCount urls = 1 then "repository" else "repositories"
    [label ++ toString urls.length ++ " across " ++
      toString (repoCount urls) ++ " " ++ repoWord]

/-- Total of the `additions` fields (`metrics.iter().map(|m| m.additions).sum()`). -/
def totalAdditions (metrics : List CodeMetrics) : Int :=
  (metrics.map CodeMetrics.additions).sum

/-- Total of the `deletions` fields. -/
def totalDeletions (metrics : List CodeMetrics) : Int :=
  (metrics.map CodeMetrics.deletions).sum

/-- Total of the `changed_files` fields. -/
def totalFiles (metrics : List CodeMetrics) : Int :=
  (metrics.map CodeMetrics.changed_files).sum

/-- `print_code_metrics` from `src/output.rs`, returning the printed line. -/
def printCodeMetrics (label : String) (metrics : List CodeMetrics) : List String :=
  [label ++ "+ " ++ toString (totalAdditions metrics) ++
    "  - " ++ toString (totalDeletions metrics) ++
    "  files: " ++ toString (totalFiles metrics)]

/-- The `net_lines` value of `print_metrics_summary`: total additions
minus total deletions. -/
def netLines (metrics : List CodeMetrics) : Int :=
  totalAdditions metrics - totalDeletions metrics

/-- Which branch of the net-contribution print is taken. -/
inductive NetTag where
  | positive
  | cleanup
  deriving DecidableEq, Repr

/-- The branch selection of `print_metrics_summary`: the `+`-labeled
positive branch when `net_lines > 0`, else the cleanup/refactoring
branch. -/
def netTag (metrics : List CodeMetrics) : NetTag :=
  if netLines metrics > 0 then NetTag.positive else NetTag.cleanup

/-- `print_metrics_summary` from `src/output.rs`, returning the printed
lines (colors elided). -/
def metricsSummaryLines (metrics : List CodeMetrics) : List String :=
  ["📊 Code Metrics Summary",
   "Total lines added:   " ++ toString (totalAdditions metrics),
   "Total lines deleted: " ++ toString (totalDeletions metrics),
   "Total files changed: " ++ toString (totalFiles metrics)] ++
  (if netLines metrics > 0 then
    ["Net contribution:    + " ++ toString (netLines metrics)]
  else
    ["Net contribution:    " ++ toString (netLines metrics) ++ " (cleanup/refactoring)"])

/-- Wrapping conversion of an unbounded integer to the value range of
`i32`, modeling the Rust `as i32` casts of the mock generator. -/
def toI32 (n : Int) : Int := (n + 2147483648) % 4294967296 - 2147483648

/-- The mock metrics triple built for index `i` in `search_prs_detailed`
(`src/github.rs`): `additions = (50 + i * 23) as i32`,
`deletions = (20 + i * 7) as i32`, `changed_files = (3 + i % 5) as i32`. -/
def mockMetrics (i : Nat) : CodeMetrics :=
  { additions := toI32 ((50 + i * 23 : Nat) : Int)
    deletions := toI32 ((20 + i * 7 : Nat) : Int)
    changed_files := toI32 ((3 + i % 5 : Nat) : Int) }

/-- The enumerate-and-push loop of `search_prs_detailed`: index `i`
yields the URL, the synthetic date `now` minus `i as i32` days (dates
abstracted to integer day numbers), and `mockMetrics i`. -/
def mockDetailedAux (now : Int) : Nat → List String → List (String × Int × CodeMetrics)
  | _, [] => []
  | i, url :: rest => (url, now - toI32 i, mockMetrics i) :: mockDetailedAux now (i + 1) rest

/-- The pure part of `search_prs_detailed` (`src/github.rs`): given the
URL list returned by the basic PR search, fabricate one dated metrics
triple per URL, starting at index `0`. -/
def searchPrsDetailedOf (now : Int) (basicPrs : List String) :
    List (String × Int × CodeMetrics) :=
  mockDetailedAux now 0 basicPrs

/-- The categories of `gh` invocations issued by `main`, used to record
which queries a run performs. -/
inductive Query where
  | currentUser
  | prsOpened
  | prsClosed
  | issuesOpened
  | issuesClosed
  | prReviews
  | comments
  deriving DecidableEq, Repr

/-- The command-line arguments of `gh-summary` (`Args` in `src/main.rs`). -/
structure Args where
  verbose : Bool
  since : Option String
  metrics : Bool

/-- The environment of a run: the results the external `gh` tool would
return for each kind of invocation, the current day number, and the
formatted date one week ago (the default `--since`). -/
structure GhEnv where
  currentUser : Except String String
  searchPrs : String → String → String → Except String (List String)
  searchIssues : String → String → String → Except String (List String)
  getPrReviews : String → String → Except String (List String)
  getComments : String → String → Except String (List String)
  now : Int
  weekAgo : String

/-- The observable outcome of a run of `main`: exit code, stdout lines,
stderr lines, and the sequence of `gh` query categories issued. -/
structure RunResult where
  exitCode : Nat
  stdout : List String
  stderr : List String
  calls : List Query
  deriving DecidableEq, Repr

/-- `search_prs_detailed` over the environment: run the basic PR search
and, on success, fabricate the mock metrics for its URLs. -/
def searchPrsDetailedRun (env : GhEnv) (username filterStr sinceDate : String) :
    Except String (List (String × Int × CodeMetrics)) :=
  match env.searchPrs username filterStr sinceDate with
  | Except.ok basicPrs => Except.ok (searchPrsDetailedOf env.now basicPrs)
  | Except.error e => Except.error e

/-- The shared shape of the enabled category blocks in `main`: on
success print the items, on failure print an error line to stderr and
continue. Returns (stdout lines, stderr lines). -/
def runCategory (label errMsg : String) (verbose : Bool)
    (res : Except String (List String)) : List String × List String :=
  match res with
  | Except.ok urls => (printItems label urls verbose, [])
  | Except.error err => ([], [errMsg ++ err])

/-- The two-line stderr diagnostic printed when identity resolution
fails (quotes around the `gh auth login` remediation command elided). -/
def authFailureLines (err : String) : List String :=
  ["Error: " ++ err, "Make sure you are authenticated with gh auth login"]

/-- The 50-character separator rule printed around the report body. -/
def rule50 : String := String.mk (List.replicate 50 '=')

/-- The `PRs opened` block of `main`: with `--metrics` it runs the
detailed search and also prints the per-category code metrics (when
nonempty) and keeps the metrics for the summary; without it, the basic
search. Returns (stdout lines, stderr lines, retained metrics). -/
def prsOpenedStep (env : GhEnv) (username sinceDate : String)
    (verbose showMetrics : Bool) :
    List String × List String × Option (List CodeMetrics) :=
  if showMetrics then
    match searchPrsDetailedRun env username "--created" sinceDate with
    | Except.ok prs =>
      let urls := prs.map (fun p => p.1)
      let metrics := prs.map (fun p => p.2.2)
      (printItems "PRs opened:" urls verbose ++
        (if metrics.isEmpty then [] else printCodeMetrics "  Code changes:" metrics),
       [], some metrics)
    | Except.error err => ([], ["Error fetching detailed PRs: " ++ err], none)
  else
    match env.searchPrs username "--created" sinceDate with
    | Except.ok urls => (printItems "PRs opened:" urls verbose, [], none)
    | Except.error err => ([], ["Error fetching PRs opened: " ++ err], none)

/-- The `main` function of `src/main.rs`, as a pure function from the
environment and the parsed arguments to the observable run outcome.
Identity-resolution failure exits with status 1 before any category
query; each category block then runs in sequence, catching its own
failure; the `PRs closed` and `Comments written` blocks sit behind
literal `if false` guards; the metrics summary prints only when
`--metrics` was given and the detailed search succeeded. -/
def mainRun (env : GhEnv) (args : Args) : RunResult :=
  let verbose := args.verbose
  let showMetrics := args.metrics
  let sinceDate := args.since.getD env.weekAgo
  match env.currentUser with
  | Except.error err =>
    { exitCode := 1
      stdout := []
      stderr := authFailureLines err
      calls := [Query.currentUser] }
  | Except.ok username =>
    let header := ["GitHub User: " ++ username, "",
                   "GitHub Activity since " ++ sinceDate ++ ":", rule50]
    let prStep := prsOpenedStep env username sinceDate verbose showMetrics
    let closedStep : List String × List String × List Query :=
      if false then
        match env.searchPrs username "--closed" sinceDate with
        | Except.ok urls => (printItems "PRs closed:" urls verbose, [], [Query.prsClosed])
        | Except.error err => ([], ["Error fetching PRs closed: " ++ err], [Query.prsClosed])
      else ([], [], [])
    let issuesOpenedStep := runCategory "Issues opened:" "Error fetching issues opened: "
      verbose (env.searchIssues username "--created" sinceDate)
    let issuesClosedStep := runCategory "Issues closed:" "Error fetching issues closed: "
      verbose (env.searchIssues username "--closed" sinceDate)
    let reviewsStep := runCategory "PR reviews given:" "Error fetching PR reviews: "
      verbose (env.getPrReviews username sinceDate)
    let commentsStep : List String × List String × List Query :=
      if false then
        match env.getComments username sinceDate with
        | Except.ok urls => (printItems "Comments written:" urls verbose, [], [Query.comments])
        | Except.error err => ([], ["Error fetching comments: " ++ err], [Query.comments])
      else ([], [], [])
    let summary :=
      match showMetrics, prStep.2.2 with
      | true, some metrics => metricsSummaryLines metrics
      | _, _ => []
    { exitCode := 0
      stdout := header ++ prStep.1 ++ closedStep.1 ++ issuesOpenedStep.1 ++
        issuesClosedStep.1 ++ reviewsStep.1 ++ commentsStep.1 ++ [rule50] ++ summary
      stderr := prStep.2.1 ++ closedStep.2.1 ++ issuesOpenedStep.2 ++
        issuesClosedStep.2 ++ reviewsStep.2 ++ commentsStep.2.1
      calls := [Query.currentUser, Query.prsOpened] ++ closedStep.2.2 ++
        [Query.issuesOpened, Query.issuesClosed, Query.prReviews] ++ commentsStep.2.2 }

/-- Decidable test for the URL shape `https://<host>/<owner>/<repo>/...`
with host `github.com`: the slash-split form has at least five segments
and starts with `https:`, an empty segment, and `github.com`. -/
def isHttpsGithubUrl (url : String) : Bool :=
  let parts := splitSlash url.toList
  decide (parts.length ≥ 5) && (parts.getD 0 [] == "https:".toList) &&
    (parts.getD 1 [] == ([] : List Char)) && (parts.getD 2 [] == "github.com".toList)

theorem splitSlash_ne_nil (cs : List Char) : splitSlash cs ≠ [] := by
  induction cs with
  | nil => simp [splitSlash]
  | cons c cs ih =>
    simp only [splitSlash]
    split
    · simp
    · cases h : splitSlash cs with
      | nil => simp
      | cons s rest => simp

theorem splitSlash_cons_slash (cs : List Char) : splitSlash ('/' :: cs) = [] :: splitSlash cs := by
  simp [splitSlash]

theorem splitSlash_no_slash (a : List Char) (h : '/' ∉ a) : splitSlash a = [a] := by
  induction a with
  | nil => rfl
  | cons c cs ih =>
    have hc : c ≠ '/' := fun hc => h (hc ▸ List.mem_cons_self c cs)
    have hcs : '/' ∉ cs := fun hm => h (List.mem_cons_of_mem c hm)
    simp only [splitSlash, if_neg hc, ih hcs]

theorem splitSlash_append (a b : List Char) (h : '/' ∉ a) :
    splitSlash (a ++ '/' :: b) = a :: splitSlash b := by
  induction a with
  | nil => simp [splitSlash]
  | cons c cs ih =>
    have hc : c ≠ '/' := fun hc => h (hc ▸ List.mem_cons_self c cs)
    have hcs : '/' ∉ cs := fun hm => h (List.mem_cons_of_mem c hm)
    simp only [List.cons_append, splitSlash, if_neg hc, List.append_eq]
    rw [ih hcs]

/-- Splitting a string of the literal shape
`https://<host>/<owner>/<repo><rest>` (slash-free host, owner, repo;
`rest` empty or starting with a slash) yields `https:`, an empty
segment, then host, owner, repo, then the segments of `rest`. -/
theorem splitSlash_shape (host owner repo rest : String)
    (hh : '/' ∉ host.toList) (ho : '/' ∉ owner.toList) (hr : '/' ∉ repo.toList)
    (hrest : rest = "" ∨ ∃ t, rest.toList = '/' :: t) :
    ∃ tailParts,
      splitSlash ("https://" ++ host ++ "/" ++ owner ++ "/" ++ repo ++ rest).toList =
        "https:".toList :: [] :: host.toList :: owner.toList :: repo.toList :: tailParts := by
  have hdata : ("https://" ++ host ++ "/" ++ owner ++ "/" ++ repo ++ rest).toList =
      "https:".toList ++ '/' :: '/' ::
        (host.toList ++ '/' :: (owner.toList ++ '/' :: (repo.toList ++ rest.toList))) := by
    show ("https://" ++ host ++ "/" ++ owner ++ "/" ++ repo ++ rest).data = _
    simp only [String.data_append, List.append_assoc]
    rfl
  rw [hdata, splitSlash_append _ _ (by decide), splitSlash_cons_slash,
    splitSlash_append _ _ hh, splitSlash_append _ _ ho]
  rcases hrest with hrest | ⟨t, hrest⟩
  · subst hrest
    rw [show ("" : String).toList = [] from rfl, List.append_nil, splitSlash_no_slash _ hr]
    exact ⟨[], rfl⟩
  · rw [hrest, splitSlash_append _ _ hr]
    exact ⟨splitSlash t, rfl⟩

/-- Any string of the literal https shape with host `github.com`
satisfies the decidable shape test. -/
theorem isHttpsGithubUrl_of_shape (owner repo rest : String)
    (ho : '/' ∉ owner.toList) (hr : '/' ∉ repo.toList)
    (hrest : rest = "" ∨ ∃ t, rest.toList = '/' :: t) :
    isHttpsGithubUrl ("https://" ++ "github.com" ++ "/" ++ owner ++ "/" ++ repo ++ rest) = true := by
  obtain ⟨tailParts, hsplit⟩ := splitSlash_shape "github.com" owner repo rest (by decide) ho hr hrest
  simp only [isHttpsGithubUrl, hsplit]
  simp

/-- C1 (amended): for every URL of the literal shape
`https://github.com/<owner>/<repo>` optionally followed by `/...`
(segments slash-free), `extract_repo` returns `some (owner/repo)`; and
`extract_repo` returns `none` exactly when the slash-split form has
fewer than five segments or a third segment different from
`github.com`.  (The original claim said every string not of the https
URL shape yields `none`; that fails, see the counterexample.) -/
theorem extract_repo_amended (url : String) :
    (∀ owner repo rest : String,
      url = "https://" ++ "github.com" ++ "/" ++ owner ++ "/" ++ repo ++ rest →
      '/' ∉ owner.toList → '/' ∉ repo.toList →
      (rest = "" ∨ ∃ t, rest.toList = '/' :: t) →
      extract_repo url = some (owner ++ "/" ++ repo)) ∧
    (extract_repo url = none ↔
      ¬((splitSlash url.toList).length ≥ 5 ∧
        (splitSlash url.toList).getD 2 [] = "github.com".toList)) := by
  constructor
  · intro owner repo rest hurl ho hr hrest
    obtain ⟨tailParts, hsplit⟩ :=
      splitSlash_shape "github.com" owner repo rest (by decide) ho hr hrest
    rw [hurl]
    simp only [extract_repo, hsplit]
    rw [if_pos]
    · show some (String.mk owner.toList ++ "/" ++ String.mk repo.toList) = _
      rfl
    · refine ⟨by simp, rfl⟩
  · simp only [extract_repo]
    split
    · simp_all
    · simp_all

/-- Witness for the amended C1: a well-formed PR URL extracts to its
owner/repo pair. -/
theorem extract_repo_amended_witness :
    extract_repo ("https://" ++ "github.com" ++ "/" ++ "emilk" ++ "/" ++ "egui" ++ "/pull/1") =
      some ("emilk" ++ "/" ++ "egui") :=
  (extract_repo_amended _).1 "emilk" "egui" "/pull/1" rfl (by decide) (by decide)
    (Or.inr ⟨"pull/1".toList, rfl⟩)

/-- C1 counterexample: `x/y/github.com/a/b` is not of the https URL
shape (it does not even start with `https:`), yet `extract_repo`
returns `some "a/b"` for it, because the code checks only the segment
count and the third segment. -/
theorem extract_repo_counterexample :
    extract_repo "x/y/github.com/a/b" = some "a/b" ∧
    isHttpsGithubUrl "x/y/github.com/a/b" = false ∧
    (splitSlash "x/y/github.com/a/b".toList).getD 0 [] ≠ "https:".toList := by
  refine ⟨by decide, by decide, by decide⟩

/-- C2: the metrics summary takes the positive branch exactly when the
sum of the additions minus the sum of the deletions is strictly
positive; a zero net (and any non-positive net) falls into the
cleanup/refactoring branch. -/
theorem net_contribution_sign (metrics : List CodeMetrics) :
    (netTag metrics = NetTag.positive ↔
      (metrics.map CodeMetrics.additions).sum - (metrics.map CodeMetrics.deletions).sum > 0) ∧
    ((metrics.map CodeMetrics.additions).sum - (metrics.map CodeMetrics.deletions).sum = 0 →
      netTag metrics = NetTag.cleanup) := by
  simp only [netTag, netLines, totalAdditions, totalDeletions]
  split_ifs with h
  · exact ⟨⟨fun _ => h, fun _ => rfl⟩, fun h0 => absurd h (by omega)⟩
  · exact ⟨⟨fun hc => absurd hc (by simp), fun hp => absurd hp h⟩, fun _ => rfl⟩

/-- Witness for C2 at the boundary: one entry with five additions and
five deletions nets to zero and lands in the cleanup branch. -/
theorem net_contribution_sign_witness :
    netTag [{ additions := 5, deletions := 5, changed_files := 1 }] = NetTag.cleanup :=
  (net_contribution_sign [{ additions := 5, deletions := 5, changed_files := 1 }]).2 (by decide)

/-- C3: the distinct-repository count of `print_items` is the
cardinality of the finite set of successful extraction results, while
the compact line reports the raw length of the URL list (so a URL whose
extraction fails is excluded from the former but counted in the
latter). -/
theorem print_items_distinct_count (label : String) (urls : List String) :
    repoCount urls = ((urls.filterMap extract_repo).toFinset).card ∧
    printItems label urls false =
      [label ++ toString urls.length ++ " across " ++ toString (repoCount urls) ++ " " ++
        (if repoCount urls = 1 then "repository" else "repositories")] :=
  ⟨(List.card_toFinset _).symm, rfl⟩

/-- C7: the three metric totals are the sums of the corresponding
fields, are invariant under any permutation of the entries, and
distribute over list concatenation (re-association). -/
theorem metrics_summation (ms₁ ms₂ : List CodeMetrics) (h : ms₁.Perm ms₂) :
    totalAdditions ms₁ = (ms₁.map CodeMetrics.additions).sum ∧
    totalDeletions ms₁ = (ms₁.map CodeMetrics.deletions).sum ∧
    totalFiles ms₁ = (ms₁.map CodeMetrics.changed_files).sum ∧
    totalAdditions ms₁ = totalAdditions ms₂ ∧
    totalDeletions ms₁ = totalDeletions ms₂ ∧
    totalFiles ms₁ = totalFiles ms₂ ∧
    ∀ a b : List CodeMetrics,
      totalAdditions (a ++ b) = totalAdditions a + totalAdditions b ∧
      totalDeletions (a ++ b) = totalDeletions a + totalDeletions b ∧
      totalFiles (a ++ b) = totalFiles a + totalFiles b := by
  refine ⟨rfl, rfl, rfl, ?_, ?_, ?_, ?_⟩
  · exact (h.map CodeMetrics.additions).sum_eq
  · exact (h.map CodeMetrics.deletions).sum_eq
  · exact (h.map CodeMetrics.changed_files).sum_eq
  · intro a b
    refine ⟨?_, ?_, ?_⟩ <;> simp [totalAdditions, totalDeletions, totalFiles]

/-- Witness for C7: swapping two concrete entries keeps all totals. -/
theorem metrics_summation_witness :
    totalAdditions [{ additions := 1, deletions := 2, changed_files := 3 },
        { additions := 4, deletions := 5, changed_files := 6 }] =
      totalAdditions [{ additions := 4, deletions := 5, changed_files := 6 },
        { additions := 1, deletions := 2, changed_files := 3 }] :=
  (metrics_summation _ _ (List.Perm.swap _ _ [])).2.2.2.1

theorem toI32_eq_of_bounds (n : Int) (h1 : -2147483648 ≤ n) (h2 : n < 2147483648) :
    toI32 n = n := by
  unfold toI32
  omega

theorem mockDetailedAux_length (now : Int) (i : Nat) (l : List String) :
    (mockDetailedAux now i l).length = l.length := by
  induction l generalizing i with
  | nil => rfl
  | cons u rest ih => simp [mockDetailedAux, ih]

theorem mockDetailedAux_map_fst (now : Int) (i : Nat) (l : List String) :
    (mockDetailedAux now i l).map (fun p => p.1) = l := by
  induction l generalizing i with
  | nil => rfl
  | cons u rest ih => simp [mockDetailedAux, ih]

theorem mockDetailedAux_getD (now : Int) (l : List String) :
    ∀ i j, j < l.length →
      (mockDetailedAux now i l).getD j ("", 0, mockMetrics 0) =
        (l.getD j "", now - toI32 (i + j : Nat), mockMetrics (i + j)) := by
  induction l with
  | nil => intro i j hj; simp at hj
  | cons u rest ih =>
    intro i j hj
    cases j with
    | zero => simp [mockDetailedAux]
    | succ j =>
      have hstep : i + 1 + j = i + (j + 1) := by omega
      simp only [mockDetailedAux, List.getD_cons_succ]
      rw [ih (i + 1) j (by simpa using hj), hstep]

/-- C4: the mock generator returns one result per URL of the basic
search, in the same order, and the `j`-th result is the `j`-th URL with
the synthetic date `now - j` days and the purely positional metrics
`additions = 50 + 23 j`, `deletions = 20 + 7 j`,
`changed_files = 3 + (j mod 5)` (the basic search is capped at 1000
results, under which the `as i32` casts are exact). -/
theorem search_prs_detailed_mock (now : Int) (urls : List String)
    (hcap : urls.length ≤ 1000) :
    (searchPrsDetailedOf now urls).length = urls.length ∧
    (searchPrsDetailedOf now urls).map (fun p => p.1) = urls ∧
    ∀ j, j < urls.length →
      (searchPrsDetailedOf now urls).getD j ("", 0, mockMetrics 0) =
        (urls.getD j "", now - (j : Int),
          { additions := 50 + 23 * (j : Int), deletions := 20 + 7 * (j : Int),
            changed_files := 3 + (j : Int) % 5 }) := by
  refine ⟨mockDetailedAux_length now 0 urls, mockDetailedAux_map_fst now 0 urls, ?_⟩
  intro j hj
  have hj1000 : j < 1000 := lt_of_lt_of_le hj hcap
  rw [show searchPrsDetailedOf now urls = mockDetailedAux now 0 urls from rfl,
    mockDetailedAux_getD now urls 0 j hj]
  have hdate : toI32 (j : Int) = (j : Int) := by
    rw [toI32_eq_of_bounds] <;> omega
  have hadd : toI32 ((50 + j * 23 : Nat) : Int) = 50 + 23 * (j : Int) := by
    rw [toI32_eq_of_bounds] <;> push_cast <;> omega
  have hdel : toI32 ((20 + j * 7 : Nat) : Int) = 20 + 7 * (j : Int) := by
    rw [toI32_eq_of_bounds] <;> push_cast <;> omega
  have hfil : toI32 ((3 + j % 5 : Nat) : Int) = 3 + (j : Int) % 5 := by
    rw [toI32_eq_of_bounds] <;> push_cast <;> omega
  simp only [mockMetrics, Nat.zero_add, hdate, hadd, hdel, hfil]

/-- Witness for C4: with two URLs, the second result carries index-1
metrics and the date one day before now. -/
theorem search_prs_detailed_mock_witness :
    (searchPrsDetailedOf 7 ["u1", "u2"]).getD 1 ("", 0, mockMetrics 0) =
      ("u2", 7 - (1 : Int),
        { additions := 50 + 23 * (1 : Int), deletions := 20 + 7 * (1 : Int),
          changed_files := 3 + (1 : Int) % 5 }) :=
  (search_prs_detailed_mock 7 ["u1", "u2"] (by decide)).2.2 1 (by decide)

theorem mockDetailedAux_nonneg (now : Int) (l : List String) :
    ∀ i, i + l.length ≤ 1000 →
      ∀ p ∈ mockDetailedAux now i l,
        0 ≤ p.2.2.additions ∧ 0 ≤ p.2.2.deletions ∧ 0 ≤ p.2.2.changed_files := by
  induction l with
  | nil => intro i hi p hp; simp [mockDetailedAux] at hp
  | cons u rest ih =>
    intro i hi p hp
    simp only [List.length_cons] at hi
    simp only [mockDetailedAux, List.mem_cons] at hp
    rcases hp with hp | hp
    · subst hp
      simp only [mockMetrics]
      refine ⟨?_, ?_, ?_⟩ <;> (rw [toI32_eq_of_bounds] <;> push_cast <;> omega)
    · exact ih (i + 1) (by omega) p hp

/-- C8: every metrics triple fabricated by the mock generator has
non-negative additions, deletions, and changed files (the basic search
feeding the generator is capped at 1000 results). -/
theorem mock_metrics_nonneg (now : Int) (urls : List String) (hcap : urls.length ≤ 1000) :
    ∀ p ∈ searchPrsDetailedOf now urls,
      0 ≤ p.2.2.additions ∧ 0 ≤ p.2.2.deletions ∧ 0 ≤ p.2.2.changed_files :=
  mockDetailedAux_nonneg now urls 0 (by omega)

/-- Witness for C8: the single result generated for one URL has
non-negative metrics. -/
theorem mock_metrics_nonneg_witness :
    0 ≤ (mockMetrics 0).additions ∧ 0 ≤ (mockMetrics 0).deletions ∧
      0 ≤ (mockMetrics 0).changed_files :=
  mock_metrics_nonneg 0 ["u"] (by decide) ("u", 0 - toI32 0, mockMetrics 0) (by decide)

theorem mockDetailedAux_net (now : Int) (l : List String) :
    ∀ i, i + l.length ≤ 1000 →
      totalAdditions ((mockDetailedAux now i l).map (fun p => p.2.2)) -
        totalDeletions ((mockDetailedAux now i l).map (fun p => p.2.2)) ≥
        30 * (l.length : Int) := by
  induction l with
  | nil => intro i hi; simp [mockDetailedAux, totalAdditions, totalDeletions]
  | cons u rest ih =>
    intro i hi
    simp only [List.length_cons] at hi
    have hrec := ih (i + 1) (by omega)
    have hadd : toI32 ((50 + i * 23 : Nat) : Int) = ((50 + i * 23 : Nat) : Int) :=
      toI32_eq_of_bounds _ (by push_cast; omega) (by push_cast; omega)
    have hdel : toI32 ((20 + i * 7 : Nat) : Int) = ((20 + i * 7 : Nat) : Int) :=
      toI32_eq_of_bounds _ (by push_cast; omega) (by push_cast; omega)
    simp only [mockDetailedAux, List.map_cons, totalAdditions, totalDeletions,
      List.sum_cons, mockMetrics, hadd, hdel, List.length_cons] at hrec ⊢
    push_cast at hrec ⊢
    omega

/-- C10: on any nonempty URL list (within the 1000-result cap of the
basic search) the mock totals satisfy additions strictly greater than
deletions, so the metrics summary always takes the positive branch and
the cleanup/refactoring branch is unreachable from the mock generator. -/
theorem mock_net_positive (now : Int) (urls : List String)
    (hne : urls ≠ []) (hcap : urls.length ≤ 1000) :
    totalAdditions ((searchPrsDetailedOf now urls).map (fun p => p.2.2)) >
      totalDeletions ((searchPrsDetailedOf now urls).map (fun p => p.2.2)) ∧
    netTag ((searchPrsDetailedOf now urls).map (fun p => p.2.2)) = NetTag.positive := by
  have h := mockDetailedAux_net now urls 0 (by omega)
  have hlen : 1 ≤ urls.length := by
    cases urls with
    | nil => exact absurd rfl hne
    | cons u rest => simp
  have hlen' : (1 : Int) ≤ (urls.length : Int) := by exact_mod_cast hlen
  rw [show searchPrsDetailedOf now urls = mockDetailedAux now 0 urls from rfl]
  have hpos : totalAdditions ((mockDetailedAux now 0 urls).map (fun p => p.2.2)) -
      totalDeletions ((mockDetailedAux now 0 urls).map (fun p => p.2.2)) > 0 := by omega
  refine ⟨by omega, ?_⟩
  unfold netTag netLines
  rw [if_pos hpos]

/-- Witness for C10: a single URL yields a strictly positive net and
the positive branch. -/
theorem mock_net_positive_witness :
    netTag ((searchPrsDetailedOf 0 ["u"]).map (fun p => p.2.2)) = NetTag.positive :=
  (mock_net_positive 0 ["u"] (by decide) (by decide)).2

theorem sorted_sortUrls (l : List String) :
    List.Sorted (fun a b : String => a ≤ b) (sortUrls l) := by
  have h := @List.sorted_mergeSort String (fun a b : String => decide (a ≤ b))
    (fun a b c hab hbc => by
      simp only [decide_eq_true_eq] at *
      exact le_trans hab hbc)
    (fun a b => by
      simp only [Bool.or_eq_true, decide_eq_true_eq]
      exact le_total a b) l
  exact h.imp fun hab => of_decide_eq_true hab

theorem sortUrls_perm (l : List String) : (sortUrls l).Perm l :=
  List.mergeSort_perm l _

theorem sortUrls_eq_of_perm {l l' : List String} (h : l.Perm l') :
    sortUrls l = sortUrls l' :=
  List.eq_of_perm_of_sorted
    (((sortUrls_perm l).trans h).trans (sortUrls_perm l').symm)
    (sorted_sortUrls l) (sorted_sortUrls l')

/-- C6: the verbose listing of `print_items` shows the URLs in sorted
order (the sort result is lexicographically sorted), and both the
verbose listing and the compact output are invariant under any
permutation of the input list. -/
theorem print_items_order_invariance (label : String) (urls urls' : List String)
    (h : urls.Perm urls') :
    List.Sorted (fun a b : String => a ≤ b) (sortUrls urls) ∧
    printItems label urls true = printItems label urls' true ∧
    printItems label urls false = printItems label urls' false := by
  have hlen := h.length_eq
  have hempty : urls.isEmpty = urls'.isEmpty := by
    cases urls <;> cases urls' <;> simp_all
  have hsort := sortUrls_eq_of_perm h
  have hcount : repoCount urls = repoCount urls' := by
    unfold repoCount
    exact ((h.filterMap extract_repo).dedup).length_eq
  refine ⟨sorted_sortUrls urls, ?_, ?_⟩
  · simp [printItems, hlen, hempty, hsort, hcount]
  · simp [printItems, hlen, hempty, hsort, hcount]

/-- Witness for C6: a transposed two-element list prints identically in
both modes. -/
theorem print_items_order_invariance_witness :
    printItems "PRs opened:" ["b", "a"] true = printItems "PRs opened:" ["a", "b"] true ∧
    printItems "PRs opened:" ["b", "a"] false = printItems "PRs opened:" ["a", "b"] false :=
  ⟨(print_items_order_invariance "PRs opened:" ["b", "a"] ["a", "b"]
      (List.Perm.swap "a" "b" [])).2.1,
   (print_items_order_invariance "PRs opened:" ["b", "a"] ["a", "b"]
      (List.Perm.swap "a" "b" [])).2.2⟩

/-- C9: no run of the entry point ever issues the PRs-closed query or
the comments query: both category blocks sit behind literal
always-false guards. -/
theorem disabled_categories_never_queried (env : GhEnv) (args : Args) :
    Query.prsClosed ∉ (mainRun env args).calls ∧
    Query.comments ∉ (mainRun env args).calls := by
  cases h : env.currentUser with
  | error e => simp [mainRun, h]
  | ok u => simp [mainRun, h]

/-- C5: if identity resolution fails, the run exits with status 1,
prints the error and the authentication hint to stderr, and issues no
category query; if it succeeds, the run exits with status 0, issues all
four enabled category queries unconditionally, and logs each category
failure to stderr without stopping the other categories. -/
theorem error_propagation_policy (env : GhEnv) (args : Args) :
    (∀ e, env.currentUser = Except.error e →
      (mainRun env args).exitCode = 1 ∧
      (mainRun env args).stderr = authFailureLines e ∧
      (mainRun env args).calls = [Query.currentUser]) ∧
    (∀ u, env.currentUser = Except.ok u →
      (mainRun env args).exitCode = 0 ∧
      (mainRun env args).calls =
        [Query.currentUser, Query.prsOpened, Query.issuesOpened,
         Query.issuesClosed, Query.prReviews] ∧
      (∀ e, args.metrics = false →
        env.searchPrs u "--created" (args.since.getD env.weekAgo) = Except.error e →
        ("Error fetching PRs opened: " ++ e) ∈ (mainRun env args).stderr) ∧
      (∀ e, args.metrics = true →
        env.searchPrs u "--created" (args.since.getD env.weekAgo) = Except.error e →
        ("Error fetching detailed PRs: " ++ e) ∈ (mainRun env args).stderr) ∧
      (∀ e, env.searchIssues u "--created" (args.since.getD env.weekAgo) = Except.error e →
        ("Error fetching issues opened: " ++ e) ∈ (mainRun env args).stderr) ∧
      (∀ e, env.searchIssues u "--closed" (args.since.getD env.weekAgo) = Except.error e →
        ("Error fetching issues closed: " ++ e) ∈ (mainRun env args).stderr) ∧
      (∀ e, env.getPrReviews u (args.since.getD env.weekAgo) = Except.error e →
        ("Error fetching PR reviews: " ++ e) ∈ (mainRun env args).stderr)) := by
  constructor
  · intro e he
    refine ⟨?_, ?_, ?_⟩ <;> simp [mainRun, he]
  · intro u hu
    refine ⟨?_, ?_, ?_, ?_, ?_, ?_, ?_⟩
    · simp [mainRun, hu]
    · simp [mainRun, hu]
    · intro e hm he
      simp [mainRun, hu, prsOpenedStep, hm, he, runCategory]
    · intro e hm he
      simp [mainRun, hu, prsOpenedStep, searchPrsDetailedRun, hm, he, runCategory]
    · intro e he
      simp [mainRun, hu, runCategory, he]
    · intro e he
      simp [mainRun, hu, runCategory, he]
    · intro e he
      simp [mainRun, hu, runCategory, he]

/-- A concrete environment whose identity resolution fails. -/
def testEnvErr : GhEnv :=
  { currentUser := Except.error "no auth"
    searchPrs := fun _ _ _ => Except.ok []
    searchIssues := fun _ _ _ => Except.ok []
    getPrReviews := fun _ _ => Except.ok []
    getComments := fun _ _ => Except.ok []
    now := 0
    weekAgo := "2026-10-05" }

/-- A concrete environment whose identity resolution succeeds but whose
issues-opened query fails. -/
def testEnvOk : GhEnv :=
  { currentUser := Except.ok "alice"
    searchPrs := fun _ _ _ => Except.ok ["https://github.com/a/b/pull/1"]
    searchIssues := fun _ f _ => if f = "--created" then Except.error "boom" else Except.ok []
    getPrReviews := fun _ _ => Except.error "nope"
    getComments := fun _ _ => Except.ok []
    now := 0
    weekAgo := "2026-10-05" }

/-- Concrete arguments: compact mode, default date, no metrics. -/
def testArgs : Args := { verbose := false, since := none, metrics := false }

/-- Witness for C5: the failing-identity environment exits 1; the
successful one exits 0 while its issues-opened failure is logged. -/
theorem error_propagation_policy_witness :
    (mainRun testEnvErr testArgs).exitCode = 1 ∧
    (mainRun testEnvOk testArgs).exitCode = 0 ∧
    ("Error fetching issues opened: " ++ "boom") ∈ (mainRun testEnvOk testArgs).stderr :=
  ⟨((error_propagation_policy testEnvErr testArgs).1 "no auth" rfl).1,
   ((error_propagation_policy testEnvOk testArgs).2 "alice" rfl).1,
   ((error_propagation_policy testEnvOk testArgs).2 "alice" rfl).2.2.2.2.1 "boom" rfl⟩
